import Mathlib

/-!
Shallow embedding of the core of the Cloud-Quarkus-Benchmarker repository:
the cold-start invocation loop of `benchmarker.py`, the per-provider
metrics-reconciliation routines of `serverlessbench/aws.py`,
`serverlessbench/azure.py` and `serverlessbench/gcp.py`, the cold-start
enforcement counters, the build cache gate of the `deploy` methods, and the
result persistence of `Benchmarker.start_run`.  Python dictionaries are
modelled as association lists whose first binding for a key is the one a
lookup sees; fallible Python operations (AttributeError, KeyError, process
exit) are modelled with `Except` and `Option`.
-/

/-- Python dict lookup `m[k]` / `m.get(k)` on an association list: the first
binding for the key wins. -/
def lookupVal {α β : Type} [DecidableEq α] (m : List (α × β)) (k : α) : Option β :=
  match m with
  | [] => none
  | (k2, v) :: rest => if k2 = k then some v else lookupVal rest k

/-- Python dict update `m[k] = v` on an association list: the first binding
for the key is replaced in place; a missing key is appended at the end. -/
def updateVal {α β : Type} [DecidableEq α] (m : List (α × β)) (k : α) (v : β) :
    List (α × β) :=
  match m with
  | [] => [(k, v)]
  | (k2, v2) :: rest => if k2 = k then (k, v) :: rest else (k2, v2) :: updateVal rest k v

theorem lookupVal_updateVal_self {α β : Type} [DecidableEq α]
    (m : List (α × β)) (k : α) (v : β) :
    lookupVal (updateVal m k v) k = some v := by
  induction m with
  | nil => simp [updateVal, lookupVal]
  | cons hd tl ih =>
    obtain ⟨k2, v2⟩ := hd
    by_cases h : k2 = k
    · simp [updateVal, lookupVal, h]
    · simp [updateVal, lookupVal, h, ih]

theorem lookupVal_updateVal_ne {α β : Type} [DecidableEq α]
    (m : List (α × β)) (k k2 : α) (v : β) (h : k2 ≠ k) :
    lookupVal (updateVal m k v) k2 = lookupVal m k2 := by
  induction m with
  | nil => simp [updateVal, lookupVal, Ne.symm h]
  | cons hd tl ih =>
    obtain ⟨k3, v3⟩ := hd
    by_cases h3 : k3 = k
    · subst h3
      simp [updateVal, lookupVal, Ne.symm h]
    · by_cases h4 : k3 = k2
      · subst h4
        simp [updateVal, lookupVal, h3, Ne.symm h]
      · simp [updateVal, lookupVal, h3, h4, ih]

/-- Python `set.add`: append the element when it is not already present. -/
def insertNew (l : List String) (x : String) : List String :=
  if x ∈ l then l else l ++ [x]

/-! ## Cold-start enforcement counters (claim C9)

Each provider reads the current `cold_start_var` configuration value
(default 0 when absent), and writes back that value plus one.  The counter
travels through the provider APIs as a string; the embedding keeps the
parsed integer, the `str`/`int` conversions being plain serialization. -/

/-- Value of the `cold_start_var` configuration entry, with the default 0
that every provider uses when the variable is absent. -/
def readColdStartVar (env : List (String × Nat)) : Nat :=
  (lookupVal env "cold_start_var").getD 0

namespace AWS

/-- Embeds `AWS.enforce_cold_start`: fetch the environment variables of the
function, read `cold_start_var` with default `'0'`, and push the whole
environment back with that variable set to the value plus one. -/
def enforce_cold_start (env : List (String × Nat)) : List (String × Nat) :=
  updateVal env "cold_start_var" (readColdStartVar env + 1)

end AWS

namespace Azure

/-- Embeds `Azure.enforce_cold_start`: list the app settings, read
`cold_start_var` with default `'0'`, and `az functionapp config appsettings
set` that single setting to the value plus one. -/
def enforce_cold_start (settings : List (String × Nat)) : List (String × Nat) :=
  updateVal settings "cold_start_var" (readColdStartVar settings + 1)

end Azure

namespace GCP

/-- Embeds the Cloud Functions path of `GCP.enforce_cold_start`: read
`cold_start_var` from the service environment variables with default 0 and
update the function with the variable set to the value plus one. -/
def enforce_cold_start (env : List (String × Nat)) : List (String × Nat) :=
  updateVal env "cold_start_var" (readColdStartVar env + 1)

/-- Embeds `GCP._enforce_cold_start_on_cloud_run`: scan the container
environment list for `cold_start_var`; when found, replace its value in
place with the value plus one, otherwise append the variable with value 1. -/
def enforce_cold_start_on_cloud_run (env : List (String × Nat)) :
    List (String × Nat) :=
  match lookupVal env "cold_start_var" with
  | some v => updateVal env "cold_start_var" (v + 1)
  | none => env ++ [("cold_start_var", 1)]

end GCP

/-! ## Build cache gate (claim C4) -/

/-- Persisted build-cache entry for one (provider, benchmark, native)
triple: the source-tree hash and the build-output hash recorded after the
last successful build. -/
structure CacheEntry where
  src_hash : String
  target_hash : String
deriving DecidableEq

/-- Persisted build-cache state: a mapping from (provider, benchmark,
native) to the recorded pair of hashes. -/
abbrev CacheStore : Type := List ((String × String × Bool) × CacheEntry)

/-- Modelled from the spec: `utils.find_cache` (the `serverlessbench/utils.py`
module is not part of the provided sources) returns the persisted
BuildCacheEntry for (provider, benchmark, native), if one exists. -/
def find_cache (store : CacheStore) (provider benchmark : String) (native : Bool) :
    Option CacheEntry :=
  lookupVal store (provider, benchmark, native)

/-- Modelled from the spec: `utils.update_cache` (missing from the provided
sources) records the given source and artifact hashes as the new cache entry
for (provider, benchmark, native). -/
def update_cache (store : CacheStore) (provider benchmark : String) (native : Bool)
    (src_hash target_hash : String) : CacheStore :=
  updateVal store (provider, benchmark, native) ⟨src_hash, target_hash⟩

/-- Embeds the rebuild condition shared by `AWS.deploy`, `Azure.deploy` and
`GCP.deploy`: rebuild when no cache entry exists, or the current source hash
differs from the cached one, or the current artifact hash (absent when the
`target` directory is missing) differs from the cached one. -/
def shouldRebuild (cache : Option CacheEntry) (src_hash : String)
    (target_hash : Option String) : Bool :=
  match cache with
  | none => true
  | some c => !(decide (c.src_hash = src_hash) && decide (some c.target_hash = target_hash))

/-- Embeds the build-cache gate of the `deploy` methods: look up the cache
entry, rebuild when `shouldRebuild` holds, and after a rebuild record the
current source hash together with the hash recomputed over the fresh build
output (`post_build_target_hash`); otherwise skip the build and leave the
store untouched.  Returns whether a build ran and the resulting store. -/
def deploy_build_gate (store : CacheStore) (provider benchmark : String)
    (native : Bool) (src_hash : String) (target_hash : Option String)
    (post_build_target_hash : String) : Bool × CacheStore :=
  let cache := find_cache store provider benchmark native
  if shouldRebuild cache src_hash target_hash then
    (true, update_cache store provider benchmark native src_hash post_build_target_hash)
  else
    (false, store)

/-! ## Invocation client (claims C1, C3, C6, C7) -/

/-- Minimal JSON value as produced by `json.loads`. -/
inductive Json where
  | null
  | bool (b : Bool)
  | num (n : Int)
  | str (s : String)
  | arr (elems : List Json)
  | obj (fields : List (String × Json))

/-- Python truthiness of a JSON value, as tested by `if not ...`. -/
def Json.truthy : Json → Bool
  | .null => false
  | .bool b => b
  | .num n => n != 0
  | .str s => !s.isEmpty
  | .arr l => !l.isEmpty
  | .obj f => !f.isEmpty

/-- Python truthiness of a `dict.get` result: `None` is falsy. -/
def pyTruthy : Option Json → Bool
  | none => false
  | some j => j.truthy

/-- Value held in `FunctionInvocationResult.response_body`: the result of
`json.loads`, or the raw response text when decoding failed. -/
inductive RespBody where
  | parsed (j : Json)
  | raw (text : String)

/-- Python attribute access `response_body.get(key)`: defined only when the
body is a dict; a raw string or a non-dict JSON value has no `.get` method
and raises AttributeError, modelled as `none`. -/
def RespBody.dictGet : RespBody → String → Option (Option Json)
  | .parsed (.obj fields), key => some (lookupVal fields key)
  | .parsed _, _ => none
  | .raw _, _ => none

/-- Embeds the `FunctionInvocationResult` record of `benchmarker.py`.
Timestamps are microseconds; `client_time` is the elapsed seconds computed
as `(client_end - client_begin) / 1_000_000`; `provider_time` starts as
`None` and is set by the reconcilers. -/
structure FunctionInvocationResult where
  request_id : Option String
  client_begin : Nat
  client_end : Nat
  client_time : ℚ
  response_body : RespBody
  provider_time : Option ℚ

/-- Python-style errors surfaced by the embedded operations. -/
inductive PyError where
  | attributeError
  | keyError
deriving DecidableEq

/-- Python `str.split(sep)` for a one-character separator, over the
character list of the string. -/
def splitOnChar (c : Char) : List Char → List (List Char)
  | [] => [[]]
  | x :: xs =>
    match splitOnChar c xs with
    | [] => [[]]
    | y :: ys => if x = c then [] :: y :: ys else (x :: y) :: ys

/-- Python indexing `[0]` on a split result. -/
def firstPart : List (List Char) → List Char
  | [] => []
  | x :: _ => x

/-- Python indexing `[-1]` on a split result. -/
def lastPart : List (List Char) → List Char
  | [] => []
  | [x] => x
  | _ :: x :: xs => lastPart (x :: xs)

/-- Embeds the gcp branch of `Benchmarker._get_request_id`: the value of the
`X-Cloud-Trace-Context` response header truncated at the first `;`. -/
def gcpHeaderRequestId (v : String) : String :=
  ⟨firstPart (splitOnChar ';' v.data)⟩

/-- Embeds `Benchmarker._get_request_id`: per-provider extraction of the
correlation id from the response headers; for gcp a missing
`X-Cloud-Trace-Context` header makes `.split` raise AttributeError. -/
def get_request_id (headers : List (String × String)) (provider : String) :
    Except PyError (Option String) :=
  if provider = "aws" then .ok (lookupVal headers "x-amzn-RequestId")
  else if provider = "azure" then .ok (lookupVal headers "X-Azure-Functions-InvocationId")
  else if provider = "gcp" then
    match lookupVal headers "X-Cloud-Trace-Context" with
    | none => .error .attributeError
    | some v => .ok (some (gcpHeaderRequestId v))
  else if provider = "knative" then .ok (lookupVal headers "x-client-trace-id")
  else .ok none

/-- HTTP response as seen by `Benchmarker.invoke_function`: the response
headers and the decoded body text. -/
structure HttpResponse where
  headers : List (String × String)
  bodyText : String

/-- Outcome of `Benchmarker.invoke_function`: a record, or the `exit(-1)`
taken on transport errors and on uncaught exceptions such as the
AttributeError of the gcp header extraction. -/
inductive InvokeOutcome where
  | ok (r : FunctionInvocationResult)
  | processExit

/-- Record built at the end of `Benchmarker.invoke_function`. -/
def mkInvocationResult (rid : Option String) (startTime endTime : Nat)
    (body : RespBody) : FunctionInvocationResult :=
  { request_id := rid, client_begin := startTime, client_end := endTime,
    client_time := ((endTime : ℚ) - (startTime : ℚ)) / 1000000,
    response_body := body, provider_time := none }

/-- Embeds `Benchmarker.invoke_function` on a completed HTTP exchange: the
correlation id is extracted from the response headers, then the body text is
decoded with `json.loads` (skipped for an empty body, which yields the empty
dict); a `JSONDecodeError` is caught and the raw text kept as the body, so a
malformed body still produces a normal record. -/
def invoke_function (provider : String) (parse : String → Option Json)
    (resp : HttpResponse) (startTime endTime : Nat) : InvokeOutcome :=
  match get_request_id resp.headers provider with
  | .error _ => .processExit
  | .ok rid =>
    let body : RespBody :=
      if resp.bodyText = "" then .parsed (.obj [])
      else
        match parse resp.bodyText with
        | some j => .parsed j
        | none => .raw resp.bodyText
    .ok (mkInvocationResult rid startTime endTime body)

/-! ## The cold-start verification loop of `Benchmarker.start_run` -/

/-- Outcome of the COLD load-profile loop over a given stream of invocation
results: `finished` carries the record set and the number of invocations
performed; `attrError` is the AttributeError raised when `.get` is called on
a non-dict response body; `pending` marks a stream exhausted before the
repetition budget was met (the concrete loop would still be invoking). -/
inductive ColdOutcome where
  | finished (records : List (Option String × FunctionInvocationResult))
      (invocations : Nat)
  | attrError (invocations : Nat)
  | pending (records : List (Option String × FunctionInvocationResult))
      (counter : Nat) (invocations : Nat)

/-- Python `dict.setdefault(k, v)`: keep the dict unchanged when the key is
present, otherwise append the binding. -/
def setdefaultRec (m : List (Option String × FunctionInvocationResult))
    (k : Option String) (v : FunctionInvocationResult) :
    List (Option String × FunctionInvocationResult) :=
  if k ∈ m.map Prod.fst then m else m ++ [(k, v)]

/-- Record stored by the cold loop: a `FunctionInvocationResult` rebuilt
from the invocation result through its JSON round trip, with
`provider_time` starting as `None`. -/
def storedRecord (r : FunctionInvocationResult) : FunctionInvocationResult :=
  { request_id := r.request_id, client_begin := r.client_begin,
    client_end := r.client_end, client_time := r.client_time,
    response_body := r.response_body, provider_time := none }

/-- Embeds the `LoadProfile.COLD` loop of `Benchmarker.start_run` over a
stream of invocation results: while the counter is below the repetition
budget, enforce a cold start, invoke, and inspect
`response_body.get('is_cold')`; a falsy value discards the attempt after a
fixed backoff without advancing the counter, a raw (non-dict) body raises
AttributeError, and a truthy value stores the record with `setdefault` and
advances the counter.  The invocation tally counts `invoke_function`
calls. -/
def coldLoopAux (repetitions : Nat) :
    Nat → List (Option String × FunctionInvocationResult) → Nat →
    List FunctionInvocationResult → ColdOutcome
  | counter, acc, inv, stream =>
    if counter < repetitions then
      match stream with
      | [] => .pending acc counter inv
      | r :: rest =>
        match r.response_body.dictGet "is_cold" with
        | none => .attrError (inv + 1)
        | some v =>
          if pyTruthy v then
            coldLoopAux repetitions (counter + 1)
              (setdefaultRec acc r.request_id (storedRecord r)) (inv + 1) rest
          else
            coldLoopAux repetitions counter acc (inv + 1) rest
    else .finished acc inv

/-- The cold loop started with an empty record set and counter 0. -/
def coldLoop (repetitions : Nat) (stream : List FunctionInvocationResult) :
    ColdOutcome :=
  coldLoopAux repetitions 0 [] 0 stream

/-! ## Metrics reconciliation (claims C2, C5, C7, C8) -/

/-- The `requests` dictionary handed to the `enrich_metrics` routines:
correlation id to invocation record. -/
abbrev ReqMap : Type := List (String × FunctionInvocationResult)

/-- Python `requests[k]["provider_time"] = t`: set `provider_time` on the
record bound to the key, leaving every other binding untouched. -/
def setProviderTime (m : ReqMap) (k : String) (t : ℚ) : ReqMap :=
  match m with
  | [] => []
  | (k2, r) :: rest =>
    if k2 = k then (k2, { r with provider_time := some t }) :: rest
    else (k2, r) :: setProviderTime rest k t

theorem lookupVal_setProviderTime_ne (m : ReqMap) (k k2 : String) (t : ℚ)
    (h : k2 ≠ k) :
    lookupVal (setProviderTime m k t) k2 = lookupVal (m : List _) k2 := by
  induction m with
  | nil => rfl
  | cons hd tl ih =>
    obtain ⟨k3, r⟩ := hd
    by_cases h3 : k3 = k
    · subst h3
      simp [setProviderTime, lookupVal, Ne.symm h]
    · by_cases h4 : k3 = k2
      · subst h4
        simp [setProviderTime, lookupVal, h3]
      · simp [setProviderTime, lookupVal, h3, h4, ih]

namespace GCP

/-- Embeds the invocation id the gcp reconciler computes from a log entry:
the last `/`-separated segment of the trace field. -/
def traceInvocationId (trace : String) : String :=
  ⟨lastPart (splitOnChar '/' trace.data)⟩

/-- Entry returned by `logging_client.list_entries`, reduced to the fields
`GCP.enrich_metrics` reads: whether the entry is a plain `LogEntry` (the
HTTP-request logs), its trace field, and `httpRequest.latency` parsed to
seconds. -/
structure GcpLogEntry where
  isHttpLogEntry : Bool
  trace : Option String
  latencySeconds : ℚ

/-- One entry of the log pass of `GCP.enrich_metrics`: skip entries that
are not plain HTTP-request `LogEntry` values, extract the invocation id as
the last `/`-separated segment of the trace, and when it belongs to the
request key set merge the latency into `provider_time` and mark the id
processed. -/
def enrichStep (request_ids_to_find_logs_for : List String)
    (st : ReqMap × List String) (e : GcpLogEntry) : ReqMap × List String :=
  if e.isHttpLogEntry then
    match e.trace with
    | some t =>
      let invocation_id := traceInvocationId t
      if invocation_id ∈ request_ids_to_find_logs_for then
        (setProviderTime st.1 invocation_id e.latencySeconds,
         insertNew st.2 invocation_id)
      else st
    | none => st
  else st

/-- Embeds `GCP.enrich_metrics` after the log fetch (the single attempt of
the gcp reconciler): the early return when the fetch failed (`none`) or
produced no entries, then one pass over the entries applying `enrichStep`.
Returns the updated requests, the processed id set, and the missing ids
reported by the closing log message. -/
def enrich_metrics (requests : ReqMap) (logs : Option (List GcpLogEntry)) :
    ReqMap × List String × List String :=
  match logs with
  | none => (requests, [], [])
  | some [] => (requests, [], [])
  | some entries =>
    let request_ids_to_find_logs_for := requests.map Prod.fst
    let out := entries.foldl (enrichStep request_ids_to_find_logs_for) (requests, [])
    (out.1, out.2,
     request_ids_to_find_logs_for.filter (fun k => decide (k ∉ out.2)))

end GCP

namespace Azure

/-- Row of the App Insights query result, reduced to the two fields
`Azure.enrich_metrics` indexes: `request[-2]` (the invocation id) and
`request[-1]` (the function execution time in milliseconds). -/
structure AzureRow where
  invocationId : String
  functionTimeMs : ℚ

/-- Embeds the row loop of `Azure.enrich_metrics`: each row whose invocation
id belongs to the requests mapping has its execution time divided by 1000
merged into `provider_time` and its id added to the processed set. -/
def processRows (st : ReqMap × List String) (rows : List AzureRow) :
    ReqMap × List String :=
  rows.foldl
    (fun st row =>
      if ((lookupVal (st.1 : List _) row.invocationId).isSome : Bool) then
        (setProviderTime st.1 row.invocationId (row.functionTimeMs / 1000),
         insertNew st.2 row.invocationId)
      else st)
    st

/-- Embeds the bounded retry loop of `Azure.enrich_metrics`: while the retry
count is below the cap and not every invocation is matched, run the App
Insights query (one fetch attempt indexed by the current retry count), merge
the matches, and when invocations are still missing sleep for the retry
interval and increment the retry count.  The fuel argument stands for
`max_retries - retries`.  Returns the final requests, the processed ids, the
number of fetches performed and the number of sleeps taken. -/
def retryLoop (fetch : Nat → List AzureRow) :
    Nat → Nat → ReqMap → List String → ReqMap × List String × Nat × Nat
  | 0, _, requests, processed => (requests, processed, 0, 0)
  | fuel + 1, retries, requests, processed =>
    if processed.length < (requests : List _).length then
      let st := processRows (requests, processed) (fetch retries)
      if st.2.length < (st.1 : List _).length then
        let out := retryLoop fetch fuel (retries + 1) st.1 st.2
        (out.1, out.2.1, out.2.2.1 + 1, out.2.2.2 + 1)
      else (st.1, st.2, 1, 0)
    else (requests, processed, 0, 0)

/-- Embeds `Azure.enrich_metrics` with its hardcoded `max_retries = 10`:
run the bounded retry loop, then, when invocations are still missing, emit
the warning carrying the unmatched id set (`none` when everything
matched). -/
def enrich_metrics (requests : ReqMap) (fetch : Nat → List AzureRow) :
    (ReqMap × List String × Nat × Nat) × Option (List String) :=
  let out := retryLoop fetch 10 0 requests []
  (out,
   if out.2.1.length < (out.1 : List _).length then
     some (((out.1 : List _).map Prod.fst).filter (fun k => decide (k ∉ out.2.1)))
   else none)

end Azure

namespace AWS

/-- Fields of the `aws_vals` dictionary that `AWS.parse_aws_report` reads
from a tab-separated REPORT log line: the request id (the `START RequestId`
entry, or the `REPORT RequestId` entry when the former is absent) and the
`Duration` value in milliseconds. -/
structure ReportVals where
  requestId : String
  durationMs : ℚ

/-- Python `isinstance(requests, dict)` on the `requests` argument of
`AWS.parse_aws_report`: both alternatives of its `Union[dict,
Dict[str, dict]]` type are dicts, so the test holds for every value the
caller can pass. -/
def isinstanceDict (_requests : ReqMap) : Bool := true

/-- Embeds `AWS.parse_aws_report` on the extracted `aws_vals`: since
`isinstance(requests, dict)` holds, `output` is the whole requests mapping
and `output[request_id]["provider_time"]` is indexed without a membership
guard, raising KeyError for an unknown id; the guarded skip that returns the
id without writing lives only in the dead non-dict branch. -/
def parse_aws_report (vals : ReportVals) (requests : ReqMap) :
    Except PyError (ReqMap × String) :=
  if isinstanceDict requests then
    match lookupVal (requests : List _) vals.requestId with
    | none => .error .keyError
    | some _ =>
      .ok (setProviderTime requests vals.requestId (vals.durationMs / 1000),
           vals.requestId)
  else
    .ok (requests, vals.requestId)

/-- One field of a CloudWatch Insights query result row. -/
structure QueryField where
  field : String
  value : ReportVals

/-- Embeds `AWS.process_query_results`: every `@message` field is parsed
with `parse_aws_report` (a KeyError propagates); when the returned request
id belongs to the requests mapping the processed count advances and the id
is removed from the outstanding id set (`set.remove` raising KeyError when
the id was already removed).  Returns the updated requests and the processed
count. -/
def process_query_results (results : List (List QueryField)) (requests : ReqMap) :
    Except PyError (ReqMap × Nat) := do
  let requests_ids := (requests : List _).map Prod.fst
  let st ← results.foldlM
    (fun (st : ReqMap × Nat × List String) row =>
      row.foldlM
        (fun (st : ReqMap × Nat × List String) part =>
          if part.field = "@message" then do
            let out ← parse_aws_report part.value st.1
            if ((lookupVal (out.1 : List _) out.2).isSome : Bool) then
              if out.2 ∈ st.2.2 then
                pure (out.1, st.2.1 + 1, st.2.2.erase out.2)
              else
                Except.error PyError.keyError
            else
              pure (out.1, st.2)
          else pure st)
        st)
    (requests, 0, requests_ids)
  pure (st.1, st.2.1)

end AWS

/-! ## Result persistence (claim C10) -/

/-- The load profiles of `benchmarker.py`. -/
inductive LoadProfile where
  | cold
  | warm
  | burst

/-- Python `Enum` member name, as interpolated into the result file name. -/
def LoadProfile.enumName : LoadProfile → String
  | .cold => "COLD"
  | .warm => "WARM"
  | .burst => "BURST"

/-- Embeds the memory component of the result file name:
`memory if memory else "default"`, where both an absent and a falsy (zero)
memory value yield `default`. -/
def memoryComponent : Option Nat → String
  | some m => if m = 0 then "default" else toString m
  | none => "default"

/-- Embeds the result file path built in `Benchmarker.start_run`:
`benchmark_results/provider/runtime/benchmark` under the root, file
`LOADPROFILE_repetitions_memory.json`. -/
def result_file_path (root provider runtime benchmark : String)
    (profile : LoadProfile) (repetitions : Nat) (memory : Option Nat) : String :=
  root ++ "/benchmark_results/" ++ provider ++ "/" ++ runtime ++ "/" ++
    benchmark ++ "/" ++ profile.enumName ++ "_" ++ toString repetitions ++ "_" ++
    memoryComponent memory ++ ".json"

/-- Embeds the `json.dump` into a file opened with mode `w`: the document at
the path is replaced wholesale, with no merging of prior contents. -/
def save_result {α : Type} (fs : String → Option α) (path : String) (doc : α) :
    String → Option α :=
  Function.update fs path (some doc)

/-! ## Theorems -/

theorem lookupVal_append_of_none {α β : Type} [DecidableEq α]
    (m m2 : List (α × β)) (k : α) (h : lookupVal m k = none) :
    lookupVal (m ++ m2) k = lookupVal m2 k := by
  induction m with
  | nil => rfl
  | cons hd tl ih =>
    obtain ⟨k2, v⟩ := hd
    by_cases h2 : k2 = k
    · simp [lookupVal, h2] at h
    · simp [lookupVal, h2] at h ⊢
      exact ih h

/-- C9: for every provider, each cold-start enforcement reads the current
`cold_start_var` configuration value (default 0 when absent) and writes back
exactly that value plus one, so the stored counter strictly increases across
successive calls. -/
theorem c9_cold_start_counter_strictly_increases (env : List (String × Nat)) :
    readColdStartVar (AWS.enforce_cold_start env) = readColdStartVar env + 1 ∧
    readColdStartVar (Azure.enforce_cold_start env) = readColdStartVar env + 1 ∧
    readColdStartVar (GCP.enforce_cold_start env) = readColdStartVar env + 1 ∧
    readColdStartVar (GCP.enforce_cold_start_on_cloud_run env) =
      readColdStartVar env + 1 ∧
    readColdStartVar env < readColdStartVar (AWS.enforce_cold_start env) := by
  have haws : readColdStartVar (AWS.enforce_cold_start env) = readColdStartVar env + 1 := by
    simp [AWS.enforce_cold_start, readColdStartVar, lookupVal_updateVal_self]
  refine ⟨haws, ?_, ?_, ?_, ?_⟩
  · simp [Azure.enforce_cold_start, readColdStartVar, lookupVal_updateVal_self]
  · simp [GCP.enforce_cold_start, readColdStartVar, lookupVal_updateVal_self]
  · unfold GCP.enforce_cold_start_on_cloud_run
    cases h : lookupVal env "cold_start_var" with
    | none =>
      simp [readColdStartVar, h, lookupVal_append_of_none env _ _ h, lookupVal]
    | some v =>
      simp [readColdStartVar, h, lookupVal_updateVal_self]
  · rw [haws]
    exact Nat.lt_succ_self _

/-- C4: the build gate skips the rebuild exactly when a cached entry exists
whose recorded source hash and artifact hash both equal the current ones; an
absent artifact hash (missing build output) forces a rebuild, and after a
rebuild the cache entry holds the new hashes. -/
theorem c4_build_cache_gate (store : CacheStore) (provider benchmark : String)
    (native : Bool) (src_hash : String) (target_hash : Option String)
    (post_build_target_hash : String) :
    ((deploy_build_gate store provider benchmark native src_hash target_hash
        post_build_target_hash).1 = false ↔
      ∃ c : CacheEntry, find_cache store provider benchmark native = some c ∧
        c.src_hash = src_hash ∧ some c.target_hash = target_hash) ∧
    (target_hash = none →
      (deploy_build_gate store provider benchmark native src_hash target_hash
        post_build_target_hash).1 = true) ∧
    ((deploy_build_gate store provider benchmark native src_hash target_hash
        post_build_target_hash).1 = true →
      find_cache (deploy_build_gate store provider benchmark native src_hash
          target_hash post_build_target_hash).2 provider benchmark native =
        some ⟨src_hash, post_build_target_hash⟩) := by
  refine ⟨?_, ?_, ?_⟩
  · cases h : find_cache store provider benchmark native with
    | none => simp [deploy_build_gate, shouldRebuild, h]
    | some c =>
      by_cases h1 : c.src_hash = src_hash
      · by_cases h2 : some c.target_hash = target_hash
        · simp [deploy_build_gate, shouldRebuild, h, h1, h2]
        · simp [deploy_build_gate, shouldRebuild, h, h1, h2]
      · simp [deploy_build_gate, shouldRebuild, h, h1]
  · intro ht
    subst ht
    cases h : find_cache store provider benchmark native with
    | none => simp [deploy_build_gate, shouldRebuild, h]
    | some c => simp [deploy_build_gate, shouldRebuild, h]
  · intro hb
    unfold deploy_build_gate at hb ⊢
    by_cases h : shouldRebuild (find_cache store provider benchmark native)
        src_hash target_hash
    · simp only [h, if_true]
      exact lookupVal_updateVal_self store (provider, benchmark, native) _
    · simp [h] at hb

/-- C4 witness: with an empty cache store and a missing build output the
gate rebuilds and records the new hashes. -/
theorem c4_build_cache_gate_witness :
    (deploy_build_gate ([] : CacheStore) "aws" "echo" false "s1" none "t1").1 = true ∧
    find_cache (deploy_build_gate ([] : CacheStore) "aws" "echo" false "s1" none
        "t1").2 "aws" "echo" false = some ⟨"s1", "t1"⟩ := by
  have h := c4_build_cache_gate ([] : CacheStore) "aws" "echo" false "s1" none "t1"
  exact ⟨h.2.1 rfl, h.2.2 (h.2.1 rfl)⟩

/-- C10: the result file path is a deterministic function of provider,
runtime, benchmark name, load profile, repetitions and memory variant (with
`default` substituted for an absent memory value), and writing twice to the
same path fully replaces the first document with the second. -/
theorem c10_result_store_overwrites {α : Type} (fs : String → Option α)
    (root provider runtime benchmark : String) (profile : LoadProfile)
    (repetitions : Nat) (memory : Option Nat) (d1 d2 : α) :
    (save_result (save_result fs
        (result_file_path root provider runtime benchmark profile repetitions memory) d1)
        (result_file_path root provider runtime benchmark profile repetitions memory) d2 =
      save_result fs
        (result_file_path root provider runtime benchmark profile repetitions memory) d2) ∧
    save_result fs
        (result_file_path root provider runtime benchmark profile repetitions memory) d2
        (result_file_path root provider runtime benchmark profile repetitions memory) =
      some d2 ∧
    memoryComponent none = "default" := by
  refine ⟨?_, ?_, rfl⟩
  · simp [save_result, Function.update_idem]
  · simp [save_result]

/-- Invocation result whose JSON body reports `is_cold = false`. -/
def notColdResult (id : String) : FunctionInvocationResult :=
  mkInvocationResult (some id) 0 1 (.parsed (.obj [("is_cold", .bool false)]))

/-- Invocation result whose JSON body reports `is_cold = true`. -/
def coldResult (id : String) : FunctionInvocationResult :=
  mkInvocationResult (some id) 0 1 (.parsed (.obj [("is_cold", .bool true)]))

/-- C1: in the cold-load loop a response whose `is_cold` field is falsy is
discarded without advancing the repetition counter while still counting as
an invocation, a response reporting `is_cold` joins the record set and
advances the counter, and the sequence false, false, true under a budget of
one repetition stores exactly one record over exactly three invocations. -/
theorem c1_cold_loop_discards_non_cold (reps counter : Nat)
    (acc : List (Option String × FunctionInvocationResult)) (inv : Nat)
    (r : FunctionInvocationResult) (rest : List FunctionInvocationResult) :
    (counter < reps → ∀ v, r.response_body.dictGet "is_cold" = some v →
      pyTruthy v = false →
      coldLoopAux reps counter acc inv (r :: rest) =
        coldLoopAux reps counter acc (inv + 1) rest) ∧
    (counter < reps → ∀ v, r.response_body.dictGet "is_cold" = some v →
      pyTruthy v = true →
      coldLoopAux reps counter acc inv (r :: rest) =
        coldLoopAux reps (counter + 1)
          (setdefaultRec acc r.request_id (storedRecord r)) (inv + 1) rest) ∧
    coldLoop 1 [notColdResult "r1", notColdResult "r2", coldResult "r3"] =
      ColdOutcome.finished [(some "r3", storedRecord (coldResult "r3"))] 3 := by
  refine ⟨?_, ?_, rfl⟩
  · intro hc v hv ht
    conv_lhs => rw [coldLoopAux]
    simp [hc, hv, ht]
  · intro hc v hv ht
    conv_lhs => rw [coldLoopAux]
    simp [hc, hv, ht]

/-- C1 witness: a concrete not-cold response is discarded with the
invocation tally advanced, and a concrete cold response is stored with the
counter advanced. -/
theorem c1_cold_loop_witness :
    coldLoopAux 1 0 [] 0 [notColdResult "r1"] = coldLoopAux 1 0 [] 1 [] ∧
    coldLoopAux 1 0 [] 0 [coldResult "r3"] =
      coldLoopAux 1 1 (setdefaultRec [] (some "r3") (storedRecord (coldResult "r3")))
        1 [] := by
  constructor
  · exact (c1_cold_loop_discards_non_cold 1 0 [] 0 (notColdResult "r1") []).1
      (by decide) (some (.bool false)) rfl rfl
  · exact (c1_cold_loop_discards_non_cold 1 0 [] 0 (coldResult "r3") []).2.1
      (by decide) (some (.bool true)) rfl rfl

theorem setdefaultRec_map_fst_fresh (acc : List (Option String × FunctionInvocationResult))
    (k : Option String) (v : FunctionInvocationResult) (h : k ∉ acc.map Prod.fst) :
    (setdefaultRec acc k v).map Prod.fst = acc.map Prod.fst ++ [k] := by
  simp [setdefaultRec, h]

theorem setdefaultRec_nodup (acc : List (Option String × FunctionInvocationResult))
    (k : Option String) (v : FunctionInvocationResult)
    (h : (acc.map Prod.fst).Nodup) :
    ((setdefaultRec acc k v).map Prod.fst).Nodup := by
  by_cases hk : k ∈ acc.map Prod.fst
  · simp [setdefaultRec, hk, h]
  · rw [setdefaultRec_map_fst_fresh acc k v hk, List.nodup_append]
    refine ⟨h, List.nodup_singleton _, ?_⟩
    intro a ha hb
    simp at hb
    subst hb
    exact hk ha

theorem setdefaultRec_length_fresh (acc : List (Option String × FunctionInvocationResult))
    (k : Option String) (v : FunctionInvocationResult) (h : k ∉ acc.map Prod.fst) :
    (setdefaultRec acc k v).length = acc.length + 1 := by
  simp [setdefaultRec, h]

theorem coldLoopAux_finished_nodup (reps : Nat) :
    ∀ (stream : List FunctionInvocationResult) (counter : Nat)
      (acc : List (Option String × FunctionInvocationResult)) (inv : Nat)
      (recs : List (Option String × FunctionInvocationResult)) (total : Nat),
      (acc.map Prod.fst).Nodup →
      coldLoopAux reps counter acc inv stream = .finished recs total →
      (recs.map Prod.fst).Nodup := by
  intro stream
  induction stream with
  | nil =>
    intro counter acc inv recs total hnd h
    by_cases hc : counter < reps
    · rw [coldLoopAux] at h
      simp [hc] at h
    · rw [coldLoopAux] at h
      simp [hc] at h
      rw [← h.1]
      exact hnd
  | cons r rest ih =>
    intro counter acc inv recs total hnd h
    by_cases hc : counter < reps
    · cases hv : r.response_body.dictGet "is_cold" with
      | none =>
        rw [coldLoopAux] at h
        simp [hc, hv] at h
      | some v =>
        by_cases ht : pyTruthy v
        · rw [coldLoopAux] at h
          simp [hc, hv, ht] at h
          exact ih _ _ _ _ _ (setdefaultRec_nodup acc r.request_id (storedRecord r) hnd) h
        · rw [coldLoopAux] at h
          simp [hc, hv, ht] at h
          exact ih _ _ _ _ _ hnd h
    · rw [coldLoopAux] at h
      simp [hc] at h
      rw [← h.1]
      exact hnd

/-- Whether the cold loop counts an invocation result as a verified cold
start: its `is_cold` field, read with `.get`, is truthy (a raw body, whose
`.get` would raise, counts as not cold here; a completed loop never consumed
one). -/
def countsAsCold (r : FunctionInvocationResult) : Bool :=
  match r.response_body.dictGet "is_cold" with
  | some v => pyTruthy v
  | none => false

theorem coldLoopAux_finished_length (reps : Nat) :
    ∀ (stream : List FunctionInvocationResult) (counter : Nat)
      (acc : List (Option String × FunctionInvocationResult)) (inv : Nat)
      (recs : List (Option String × FunctionInvocationResult)) (total : Nat),
      acc.length = counter →
      counter ≤ reps →
      (acc.map Prod.fst ++
        ((stream.filter countsAsCold).take (reps - counter)).map
          (fun r => r.request_id)).Nodup →
      coldLoopAux reps counter acc inv stream = .finished recs total →
      recs.length = reps := by
  intro stream
  induction stream with
  | nil =>
    intro counter acc inv recs total hlen hle _ h
    by_cases hc : counter < reps
    · rw [coldLoopAux] at h
      simp [hc] at h
    · rw [coldLoopAux] at h
      simp [hc] at h
      rw [← h.1, hlen]
      exact Nat.le_antisymm hle (Nat.le_of_not_lt hc)
  | cons r rest ih =>
    intro counter acc inv recs total hlen hle hnd h
    by_cases hc : counter < reps
    · cases hv : r.response_body.dictGet "is_cold" with
      | none =>
        rw [coldLoopAux] at h
        simp [hc, hv] at h
      | some v =>
        by_cases ht : pyTruthy v
        · have hcold : countsAsCold r = true := by simp [countsAsCold, hv, ht]
          have hbudget : reps - counter = (reps - (counter + 1)) + 1 := by omega
          rw [List.filter_cons_of_pos hcold, hbudget, List.take_succ_cons] at hnd
          simp only [List.map_cons] at hnd
          have hfresh : r.request_id ∉ acc.map Prod.fst := by
            have hdisj := (List.nodup_append.mp hnd).2.2
            intro hmem
            exact hdisj hmem (by simp)
          rw [coldLoopAux] at h
          simp [hc, hv, ht] at h
          refine ih (counter + 1) _ (inv + 1) recs total ?_ hc ?_ h
          · rw [setdefaultRec_length_fresh acc r.request_id (storedRecord r) hfresh, hlen]
          · rw [setdefaultRec_map_fst_fresh acc r.request_id (storedRecord r) hfresh,
              List.append_assoc, List.singleton_append]
            exact hnd
        · have hcold : countsAsCold r = false := by simp [countsAsCold, hv, ht]
          rw [List.filter_cons_of_neg (by simp [hcold])] at hnd
          rw [coldLoopAux] at h
          simp [hc, hv, ht] at h
          exact ih counter acc (inv + 1) recs total hlen hle hnd h
    · rw [coldLoopAux] at h
      simp [hc] at h
      rw [← h.1, hlen]
      exact Nat.le_antisymm hle (Nat.le_of_not_lt hc)

/-- C6 (amended): when the cold-load loop completes, the record set handed
to the reconciler has unique correlation-id keys, and its cardinality equals
the repetition budget provided the counted cold invocations — the first
`reps` stream elements whose `is_cold` field is truthy — carried pairwise
distinct correlation ids; duplicate counted ids are collapsed by
`setdefault` while the counter still advances, so the cardinality can fall
short of the budget. -/
theorem c6_record_set_unique_and_complete (reps : Nat)
    (stream : List FunctionInvocationResult)
    (recs : List (Option String × FunctionInvocationResult)) (total : Nat)
    (h : coldLoop reps stream = .finished recs total) :
    (recs.map Prod.fst).Nodup ∧
    ((((stream.filter countsAsCold).take reps).map
        (fun r => r.request_id)).Nodup → recs.length = reps) := by
  constructor
  · exact coldLoopAux_finished_nodup reps stream 0 [] 0 recs total (by simp) h
  · intro hnd
    exact coldLoopAux_finished_length reps stream 0 [] 0 recs total rfl
      (Nat.zero_le _) (by simpa using hnd) h

/-- C6 counterexample: two counted cold invocations sharing one correlation
id complete a budget of two repetitions with a record set of cardinality
one, not two. -/
theorem c6_counterexample :
    coldLoop 2 [coldResult "x", coldResult "x"] =
      ColdOutcome.finished [(some "x", storedRecord (coldResult "x"))] 2 ∧
    ([(some "x", storedRecord (coldResult "x"))] :
      List (Option String × FunctionInvocationResult)).length ≠ 2 :=
  ⟨rfl, by decide⟩

/-- C6 witness: a run whose discarded warm attempt reuses the id of a later
counted cold invocation still completes with unique keys and cardinality
two — the distinctness condition concerns only the counted cold ids. -/
theorem c6_witness :
    (([(some "x", storedRecord (coldResult "x")),
       (some "y", storedRecord (coldResult "y"))] :
      List (Option String × FunctionInvocationResult)).map Prod.fst).Nodup ∧
    ([(some "x", storedRecord (coldResult "x")),
      (some "y", storedRecord (coldResult "y"))] :
      List (Option String × FunctionInvocationResult)).length = 2 := by
  have h := c6_record_set_unique_and_complete 2
    [notColdResult "x", coldResult "x", coldResult "y"]
    [(some "x", storedRecord (coldResult "x")),
     (some "y", storedRecord (coldResult "y"))] 3 rfl
  exact ⟨h.1, h.2 (by decide)⟩

/-- C3 (amended): an invocation whose response body fails JSON parsing is
not treated as a request error by `invoke_function` — the raw response text
is preserved in the record — but in the cold-load loop the `is_cold`
inspection of that raw body raises AttributeError, aborting the run instead
of counting the invocation. -/
theorem c3_malformed_body_kept_but_crashes_cold_loop (provider : String)
    (parse : String → Option Json) (resp : HttpResponse) (t0 t1 : Nat)
    (rid : Option String)
    (hid : get_request_id resp.headers provider = .ok rid)
    (hne : resp.bodyText ≠ "")
    (hparse : parse resp.bodyText = none) :
    invoke_function provider parse resp t0 t1 =
      InvokeOutcome.ok (mkInvocationResult rid t0 t1 (.raw resp.bodyText)) ∧
    ∀ reps counter acc inv rest, counter < reps →
      coldLoopAux reps counter acc inv
        (mkInvocationResult rid t0 t1 (.raw resp.bodyText) :: rest) =
        ColdOutcome.attrError (inv + 1) := by
  constructor
  · simp [invoke_function, hid, hne, hparse]
  · intro reps counter acc inv rest hc
    rw [coldLoopAux]
    simp [hc, mkInvocationResult, RespBody.dictGet]

/-- C3 counterexample: with one repetition and a single invocation whose
body is not JSON, the raw text is preserved in the record, yet the cold run
aborts with AttributeError after that one invocation and stores no record —
the invocation does not count toward the run. -/
theorem c3_counterexample :
    invoke_function "aws" (fun _ => none)
        { headers := [("x-amzn-RequestId", "cx1")], bodyText := "not json" } 0 5 =
      InvokeOutcome.ok (mkInvocationResult (some "cx1") 0 5 (.raw "not json")) ∧
    coldLoop 1 [mkInvocationResult (some "cx1") 0 5 (.raw "not json")] =
      ColdOutcome.attrError 1 :=
  ⟨rfl, rfl⟩

/-- C3 witness: the amended behavior at a concrete malformed response. -/
theorem c3_witness :
    invoke_function "aws" (fun _ => none)
        { headers := [("x-amzn-RequestId", "w1")], bodyText := "oops" } 0 5 =
      InvokeOutcome.ok (mkInvocationResult (some "w1") 0 5 (.raw "oops")) ∧
    coldLoopAux 1 0 [] 0 [mkInvocationResult (some "w1") 0 5 (.raw "oops")] =
      ColdOutcome.attrError 1 := by
  have h := c3_malformed_body_kept_but_crashes_cold_loop "aws" (fun _ => none)
    { headers := [("x-amzn-RequestId", "w1")], bodyText := "oops" } 0 5 (some "w1")
    rfl (by decide) rfl
  exact ⟨h.1, h.2 1 0 [] 0 [] (by decide)⟩

theorem processRows_no_match (rows : List Azure.AzureRow) :
    ∀ st : ReqMap × List String,
      (∀ row ∈ rows, lookupVal st.1 row.invocationId = none) →
      Azure.processRows st rows = st := by
  induction rows with
  | nil => intro st _; rfl
  | cons r rest ih =>
    intro st h
    have hr := h r (by simp)
    unfold Azure.processRows
    rw [List.foldl_cons]
    have hstep : (if ((lookupVal st.1 r.invocationId).isSome : Bool) then
        (setProviderTime st.1 r.invocationId (r.functionTimeMs / 1000),
         insertNew st.2 r.invocationId)
      else st) = st := by simp [hr]
    rw [hstep]
    exact ih st (fun row hm => h row (by simp [hm]))

theorem azure_retryLoop_no_match (fetch : Nat → List Azure.AzureRow)
    (requests : ReqMap) (hne : requests ≠ [])
    (hmiss : ∀ i row, row ∈ fetch i →
      lookupVal requests row.invocationId = none) :
    ∀ fuel retries, Azure.retryLoop fetch fuel retries requests [] =
      (requests, [], fuel, fuel) := by
  intro fuel
  induction fuel with
  | zero => intro _; rfl
  | succ n ih =>
    intro retries
    have hlen : (0 : Nat) < requests.length := List.length_pos.mpr hne
    have hpr : Azure.processRows (requests, ([] : List String)) (fetch retries) =
        (requests, ([] : List String)) :=
      processRows_no_match (fetch retries) (requests, [])
        (fun row hm => hmiss retries row hm)
    rw [Azure.retryLoop]
    simp only [List.length_nil, hlen, if_true, hpr, ih (retries + 1)]

/-- C2: under a bounded retry policy, when the provider log fetch never
produces a matching entry the azure reconciliation loop performs exactly its
attempt budget of fetches (and as many interval sleeps) and then stops, the
record set is returned with every record unenriched, and the closing warning
reports every correlation id as unmatched. -/
theorem c2_bounded_reconciliation_terminates (fetch : Nat → List Azure.AzureRow)
    (maxAttempts : Nat) (requests : ReqMap) (hne : requests ≠ [])
    (hmiss : ∀ i row, row ∈ fetch i →
      lookupVal requests row.invocationId = none) :
    Azure.retryLoop fetch maxAttempts 0 requests [] =
      (requests, [], maxAttempts, maxAttempts) ∧
    (Azure.enrich_metrics requests fetch).2 = some (requests.map Prod.fst) := by
  have h := azure_retryLoop_no_match fetch requests hne hmiss
  refine ⟨h maxAttempts 0, ?_⟩
  unfold Azure.enrich_metrics
  rw [h 10 0]
  simp [List.length_pos.mpr hne, List.filter_eq_self]

/-- C2 witness: a single pending record under `maxAttempts = 3` and a fetch
that always returns nothing. -/
theorem c2_witness :
    Azure.retryLoop (fun _ => []) 3 0
        [("a", mkInvocationResult (some "a") 0 1 (.parsed (.obj [])))] [] =
      ([("a", mkInvocationResult (some "a") 0 1 (.parsed (.obj [])))], [], 3, 3) ∧
    (Azure.enrich_metrics
        [("a", mkInvocationResult (some "a") 0 1 (.parsed (.obj [])))]
        (fun _ => [])).2 = some ["a"] := by
  have h := c2_bounded_reconciliation_terminates (fun _ => []) 3
    [("a", mkInvocationResult (some "a") 0 1 (.parsed (.obj [])))]
    (by simp) (by intro i row hm; cases hm)
  refine ⟨h.1, ?_⟩
  rw [h.2]
  rfl

/-- Pending record used by the C5 scenario. -/
def c5rec (id : String) : FunctionInvocationResult :=
  mkInvocationResult (some id) 0 1 (.parsed (.obj [("is_cold", .bool true)]))

/-- The C5 pending record set with keys a, b, c. -/
def c5Requests : ReqMap := [("a", c5rec "a"), ("b", c5rec "b"), ("c", c5rec "c")]

/-- The C5 log entries, matching only a and b. -/
def c5Logs : List GCP.GcpLogEntry :=
  [{ isHttpLogEntry := true, trace := some "projects/p/traces/a", latencySeconds := 1 },
   { isHttpLogEntry := true, trace := some "projects/p/traces/b", latencySeconds := 2 }]

/-- C5: for the pending record set with keys a, b, c and fetched log entries
matching only a and b, the single-attempt gcp reconciliation sets
`provider_time` on a and b, leaves it absent on c, reports 2 matched out of
3, and surfaces the unmatched id set non-fatally while returning the full
record set. -/
theorem c5_partial_reconciliation_scenario :
    ((lookupVal (GCP.enrich_metrics c5Requests (some c5Logs)).1 "a").map
        (fun r => r.provider_time)) = some (some 1) ∧
    ((lookupVal (GCP.enrich_metrics c5Requests (some c5Logs)).1 "b").map
        (fun r => r.provider_time)) = some (some 2) ∧
    ((lookupVal (GCP.enrich_metrics c5Requests (some c5Logs)).1 "c").map
        (fun r => r.provider_time)) = some none ∧
    (GCP.enrich_metrics c5Requests (some c5Logs)).2.1.length = 2 ∧
    c5Requests.length = 3 ∧
    (GCP.enrich_metrics c5Requests (some c5Logs)).2.2 = ["c"] ∧
    (GCP.enrich_metrics c5Requests (some c5Logs)).1.length = 3 :=
  ⟨rfl, rfl, rfl, rfl, rfl, rfl, rfl⟩

theorem char_not_mem_lastPart_splitOnChar (c : Char) (l : List Char) :
    c ∉ lastPart (splitOnChar c l) := by
  induction l with
  | nil => simp [splitOnChar, lastPart]
  | cons x xs ih =>
    cases h : splitOnChar c xs with
    | nil => simp [splitOnChar, h, lastPart]
    | cons y ys =>
      rw [h] at ih
      by_cases hx : x = c
      · simpa [splitOnChar, h, hx, lastPart] using ih
      · cases ys with
        | nil =>
          simp only [splitOnChar, h, hx, if_false, lastPart, List.mem_cons]
          rintro (hcx | hcy)
          · exact hx hcx.symm
          · exact ih (by simpa [lastPart] using hcy)
        | cons z zs =>
          simpa [splitOnChar, h, hx, lastPart] using ih

theorem gcp_traceInvocationId_no_slash (t : String) :
    '/' ∉ (GCP.traceInvocationId t).data :=
  char_not_mem_lastPart_splitOnChar '/' t.data

theorem gcp_enrichStep_preserves_slash_keys (ids : List String) (k : String)
    (hk : '/' ∈ k.data) (st : ReqMap × List String) (e : GCP.GcpLogEntry) :
    lookupVal (GCP.enrichStep ids st e).1 k = lookupVal st.1 k := by
  unfold GCP.enrichStep
  by_cases hh : e.isHttpLogEntry
  · simp only [hh, if_true]
    cases ht : e.trace with
    | none => rfl
    | some t =>
      simp only
      by_cases hm : GCP.traceInvocationId t ∈ ids
      · simp only [hm, if_true]
        refine lookupVal_setProviderTime_ne st.1 (GCP.traceInvocationId t) k _ ?_
        intro heq
        exact gcp_traceInvocationId_no_slash t (heq ▸ hk)
      · simp [hm]
  · simp [hh]

theorem gcp_fold_preserves_slash_keys (ids : List String) (k : String)
    (hk : '/' ∈ k.data) :
    ∀ (entries : List GCP.GcpLogEntry) (st : ReqMap × List String),
      lookupVal (entries.foldl (GCP.enrichStep ids) st).1 k = lookupVal st.1 k := by
  intro entries
  induction entries with
  | nil => intro st; rfl
  | cons e es ih =>
    intro st
    rw [List.foldl_cons, ih (GCP.enrichStep ids st e),
      gcp_enrichStep_preserves_slash_keys ids k hk st e]

/-- C7: the gcp correlation id stored at invocation time is everything
before the first `;` of the trace header, while the reconciler matches by
the last `/`-separated segment of a log trace, which can never contain `/`;
a stored id containing `/` therefore differs from every reconciler id, and
the record under such a key is never enriched with a provider time. -/
theorem c7_gcp_id_scheme_mismatch :
    (∀ h : String, '/' ∈ (gcpHeaderRequestId h).data →
      ∀ t : String, gcpHeaderRequestId h ≠ GCP.traceInvocationId t) ∧
    (∀ (requests : ReqMap) (logs : Option (List GCP.GcpLogEntry)) (k : String),
      '/' ∈ k.data →
      lookupVal (GCP.enrich_metrics requests logs).1 k = lookupVal requests k) := by
  constructor
  · intro h hh t heq
    exact gcp_traceInvocationId_no_slash t (heq ▸ hh)
  · intro requests logs k hk
    cases logs with
    | none => rfl
    | some entries =>
      cases entries with
      | nil => rfl
      | cons e es =>
        show lookupVal ((e :: es).foldl
            (GCP.enrichStep (requests.map Prod.fst)) (requests, [])).1 k =
          lookupVal requests k
        exact gcp_fold_preserves_slash_keys (requests.map Prod.fst) k hk
          (e :: es) (requests, [])

/-- C7 witness: a concrete header value of the form TRACE/SPAN is stored
locally and never matched or enriched by the reconciler. -/
theorem c7_witness :
    gcpHeaderRequestId "tr/sp;o=1" ≠ GCP.traceInvocationId "projects/p/traces/tr" ∧
    lookupVal (GCP.enrich_metrics
        [("tr/sp", mkInvocationResult (some "tr/sp") 0 1 (.parsed (.obj [])))]
        (some [{ isHttpLogEntry := true, trace := some "projects/p/traces/tr",
                 latencySeconds := 1 }])).1 "tr/sp" =
      lookupVal [("tr/sp", mkInvocationResult (some "tr/sp") 0 1 (.parsed (.obj [])))]
        "tr/sp" := by
  exact ⟨c7_gcp_id_scheme_mismatch.1 "tr/sp;o=1" (by decide) "projects/p/traces/tr",
    c7_gcp_id_scheme_mismatch.2
      [("tr/sp", mkInvocationResult (some "tr/sp") 0 1 (.parsed (.obj [])))]
      (some [{ isHttpLogEntry := true, trace := some "projects/p/traces/tr",
               latencySeconds := 1 }]) "tr/sp" (by decide)⟩

/-- C8: `parse_aws_report` is only called with the full requests dictionary,
whose `isinstance(requests, dict)` test always holds, so `output` is always
the whole mapping and the guarded early return is unreachable; a fetched
REPORT entry whose request id is not a key of the pending mapping therefore
raises KeyError through the unguarded indexing instead of being skipped,
and the error propagates out of `process_query_results`. -/
theorem c8_parse_aws_report_keyerror (vals : AWS.ReportVals) (requests : ReqMap)
    (hmiss : lookupVal requests vals.requestId = none) :
    (∀ reqs : ReqMap, AWS.isinstanceDict reqs = true) ∧
    AWS.parse_aws_report vals requests = .error PyError.keyError ∧
    AWS.process_query_results [[{ field := "@message", value := vals }]] requests =
      .error PyError.keyError := by
  have hp : AWS.parse_aws_report vals requests = .error PyError.keyError := by
    simp [AWS.parse_aws_report, AWS.isinstanceDict, hmiss]
  refine ⟨fun _ => rfl, hp, ?_⟩
  simp only [AWS.process_query_results, List.foldlM_cons, List.foldlM_nil, hp]
  rfl

/-- C8 witness: a REPORT entry for an id unknown to an empty pending map. -/
theorem c8_witness :
    AWS.parse_aws_report { requestId := "r9", durationMs := 5 } [] =
      .error PyError.keyError ∧
    AWS.process_query_results
        [[{ field := "@message", value := { requestId := "r9", durationMs := 5 } }]]
        [] = .error PyError.keyError := by
  have h := c8_parse_aws_report_keyerror { requestId := "r9", durationMs := 5 } [] rfl
  exact ⟨h.2.1, h.2.2⟩
